import Mathlib

/-!
Shallow embedding of `src/deno_loader_plugin.rs` (rolldown_plugin_deno_loader).

The Rust module implements a rolldown plugin that resolves and loads `jsr:`,
`npm:` and `http(s):` specifiers via the external `deno info --json` command.
External effect boundaries (the subprocess, JSON parsing, the host's delegated
resolver and the filesystem) are modelled as explicit oracle parameters, and
`Result`/panic-carrying control flow is modelled in the `Except String` monad
(a panic via `.expect(msg)` becomes `.error msg`).
-/

namespace DenoLoader

/-- Media types reported by `deno info` (Rust enum `DenoMediaType`). -/
inductive DenoMediaType where
  | TypeScript
  | Tsx
  | JavaScript
  | Jsx
  | Json
  | Dmts
  | Mjs
  deriving DecidableEq, Repr

/-- One entry of the `modules` array (Rust enum `ModuleInfo`).
`esm` carries `local`, `specifier` and `mediaType`; `npm` carries
`specifier` and `npmPackage`.  The Rust field `local` is called
`localPath` here because `local` is a Lean keyword. -/
inductive ModuleInfo where
  | esm (localPath : String) (specifier : String) (media_type : DenoMediaType)
  | npm (specifier : String) (npm_package : String)
  deriving DecidableEq, Repr

/-- The decoded `deno info --json` response (Rust struct `DenoInfoJsonV1`).
The Rust `HashMap<String, String>` is modelled as an association list with
exact-key lookup (`List.lookup`). -/
structure DenoInfoJsonV1 where
  redirects : List (String × String)
  modules : List ModuleInfo
  deriving DecidableEq, Repr

/-- The module types of `rolldown_common::ModuleType` relevant here. -/
inductive ModuleType where
  | Js
  | Jsx
  | Ts
  | Tsx
  | Json
  | Css
  | Text
  | Empty
  deriving DecidableEq, Repr

/-- The fields of `HookResolveIdOutput` that the plugin sets. -/
structure HookResolveIdOutput where
  id : String
  external : Option Bool
  deriving DecidableEq, Repr

/-- The fields of `HookLoadOutput` that the plugin sets. -/
structure HookLoadOutput where
  code : String
  module_type : Option ModuleType
  deriving DecidableEq, Repr

/-- Rust's `str::starts_with(pat)` on UTF-8 strings, as a character-list
prefix test. -/
def starts_with (s pat : String) : Bool :=
  pat.toList.isPrefixOf s.toList

/-- Rust's `Result::expect(msg)`: on `Ok v` yield `v`, on `Err` panic with
`msg` (a panic is modelled as `.error msg`). -/
def expect (r : Except String α) (msg : String) : Except String α :=
  match r with
  | .ok v => .ok v
  | .error _ => .error msg

/-- Helper for the termination measure of `followRedirects`: filtering with a
stronger predicate never yields a longer list. -/
theorem length_filter_le_of_imp {α : Type} (l : List α) (p q : α → Bool)
    (himp : ∀ x, q x = true → p x = true) :
    (l.filter q).length ≤ (l.filter p).length := by
  induction l with
  | nil => simp
  | cons b t ih =>
    by_cases hq : q b = true
    · simp only [List.filter_cons, hq, himp b hq, if_true, List.length_cons]
      omega
    · by_cases hp : p b = true <;> simp [List.filter_cons, hq, hp] <;> omega

/-- Helper for the termination measure of `followRedirects`: filtering with a
strictly stronger predicate that additionally excludes a member of the list
yields a strictly shorter list. -/
theorem length_filter_lt_of_mem {α : Type} (l : List α) (p q : α → Bool) (a : α)
    (ha : a ∈ l) (hpa : p a = true) (hqa : q a = false)
    (himp : ∀ x, q x = true → p x = true) :
    (l.filter q).length < (l.filter p).length := by
  induction l with
  | nil => cases ha
  | cons b t ih =>
    rcases List.mem_cons.mp ha with rfl | hat
    · have hle := length_filter_le_of_imp t p q himp
      simp [List.filter_cons, hpa, hqa]
      omega
    · have hlt := ih hat
      by_cases hq : q b = true
      · have hp := himp b hq
        simp [List.filter_cons, hq, hp]
        omega
      · by_cases hp : p b = true <;> simp [List.filter_cons, hq, hp] <;> omega

/-- A successful `List.lookup` means the key occurs among the mapped keys. -/
theorem mem_keys_of_lookup {rs : List (String × String)} {k v : String}
    (h : rs.lookup k = some v) : k ∈ rs.map Prod.fst := by
  have hs : (rs.lookup k).isSome := by simp [h]
  rcases List.lookup_isSome_iff.mp hs with ⟨p, hp, he⟩
  have : k = p.1 := eq_of_beq he
  exact this ▸ List.mem_map.mpr ⟨p, hp, rfl⟩

/-- Rust `follow_redirects` (src lines 54-69): starting from `current`,
repeatedly follow the redirect map; a key revisited (tracked in `seen`)
is a circular redirect.  The Rust loop starts with `seen` empty; the
`seen` argument makes the loop state explicit. -/
def followRedirects (redirects : List (String × String)) (current : String)
    (seen : List String) : Except String String :=
  match h : redirects.lookup current with
  | none => .ok current
  | some next =>
    if hmem : current ∈ seen then .error "Circular redirect detected"
    else followRedirects redirects next (current :: seen)
termination_by ((redirects.map Prod.fst).filter (fun k => !seen.contains k)).length
decreasing_by
  exact length_filter_lt_of_mem (redirects.map Prod.fst)
    (fun k => !seen.contains k) (fun k => !(current :: seen).contains k) current
    (mem_keys_of_lookup h)
    (by simp [hmem])
    (by simp)
    (by intro x hx; simp at hx ⊢; exact hx.2)

/-- Rust `follow_redirects` entry point: the loop begins with an empty
`seen` set. -/
def follow_redirects (redirects : List (String × String)) (initial : String) :
    Except String String :=
  followRedirects redirects initial []

/-- One redirect step: the redirect table maps `x` to `y`. -/
def redirectStep (rs : List (String × String)) (x y : String) : Prop :=
  rs.lookup x = some y

/-- Reachability along redirect steps. -/
def Reaches (rs : List (String × String)) : String → String → Prop :=
  Relation.ReflTransGen (redirectStep rs)

/-- Some specifier lying on a redirect cycle is reachable from `start`. -/
def CycleReachable (rs : List (String × String)) (start : String) : Prop :=
  ∃ x, Reaches rs start x ∧ Relation.TransGen (redirectStep rs) x x

/-- The redirect step relation is deterministic: a key maps to at most one
target. -/
theorem redirectStep_rightUnique (rs : List (String × String)) :
    Relator.RightUnique (redirectStep rs) := by
  intro a b c hab hac
  unfold redirectStep at hab hac
  rw [hab] at hac
  exact Option.some.inj hac

/-- Nothing is reachable from a non-key except itself. -/
theorem reaches_eq_of_terminal {rs : List (String × String)} {v w : String}
    (hv : rs.lookup v = none) (h : Reaches rs v w) : v = w := by
  rcases Relation.ReflTransGen.cases_head h with heq | ⟨c, hc, _⟩
  · exact heq
  · unfold redirectStep at hc
    rw [hv] at hc
    cases hc

/-- Every specifier reachable from a point on a cycle is itself on a cycle. -/
theorem transGen_self_of_reaches {rs : List (String × String)} {x v : String}
    (hx : Relation.TransGen (redirectStep rs) x x) (hv : Reaches rs x v) :
    Relation.TransGen (redirectStep rs) v v := by
  unfold Reaches at hv
  induction hv with
  | refl => exact hx
  | tail hxb hbc ih =>
    rcases Relation.TransGen.head'_iff.mp ih with ⟨w, hbw, hwb⟩
    have hwc := redirectStep_rightUnique rs hbw hbc
    subst hwc
    exact Relation.TransGen.tail' hwb hbc

/-- A successful `followRedirects` run returns a specifier reachable from the
start that is not itself a redirect key. -/
theorem followRedirects_ok (rs : List (String × String)) (v : String) :
    ∀ cur seen, followRedirects rs cur seen = .ok v →
      Reaches rs cur v ∧ rs.lookup v = none := by
  intro cur seen
  induction cur, seen using followRedirects.induct rs with
  | case1 current seen hnone =>
    intro h
    rw [followRedirects.eq_def, hnone] at h
    cases h
    exact ⟨Relation.ReflTransGen.refl, hnone⟩
  | case2 current seen next hsome hmem =>
    intro h
    rw [followRedirects.eq_def, hsome] at h
    simp [hmem] at h
  | case3 current seen next hsome hmem ih =>
    intro h
    rw [followRedirects.eq_def, hsome] at h
    simp only [hmem, dif_neg] at h
    obtain ⟨hr, hterm⟩ := ih h
    exact ⟨Relation.ReflTransGen.head hsome hr, hterm⟩

/-- The only error `followRedirects` ever returns is the circular-redirect
message. -/
theorem followRedirects_error_msg (rs : List (String × String)) :
    ∀ cur seen e, followRedirects rs cur seen = .error e →
      e = "Circular redirect detected" := by
  intro cur seen
  induction cur, seen using followRedirects.induct rs with
  | case1 current seen hnone =>
    intro e h
    rw [followRedirects.eq_def, hnone] at h
    cases h
  | case2 current seen next hsome hmem =>
    intro e h
    rw [followRedirects.eq_def, hsome] at h
    simp only [hmem, dif_pos] at h
    cases h
    rfl
  | case3 current seen next hsome hmem ih =>
    intro e h
    rw [followRedirects.eq_def, hsome] at h
    simp only [hmem, dif_neg] at h
    exact ih e h

/-- If `followRedirects` reports an error then a cycle is reachable from the
current specifier, provided every entry of `seen` can already reach the
current specifier in at least one step. -/
theorem followRedirects_error_cycle (rs : List (String × String)) :
    ∀ cur seen, (∀ s ∈ seen, Relation.TransGen (redirectStep rs) s cur) →
      ∀ e, followRedirects rs cur seen = .error e → CycleReachable rs cur := by
  intro cur seen
  induction cur, seen using followRedirects.induct rs with
  | case1 current seen hnone =>
    intro _ e h
    rw [followRedirects.eq_def, hnone] at h
    cases h
  | case2 current seen next hsome hmem =>
    intro hinv e _
    exact ⟨current, Relation.ReflTransGen.refl, hinv current hmem⟩
  | case3 current seen next hsome hmem ih =>
    intro hinv e h
    rw [followRedirects.eq_def, hsome] at h
    simp only [hmem, dif_neg] at h
    have hinv' : ∀ s ∈ current :: seen,
        Relation.TransGen (redirectStep rs) s next := by
      intro s hs
      rcases List.mem_cons.mp hs with rfl | hs
      · exact Relation.TransGen.single hsome
      · exact (hinv s hs).tail hsome
    rcases ih hinv' e h with ⟨x, hx, hc⟩
    exact ⟨x, Relation.ReflTransGen.head hsome hx, hc⟩

/-- A singleton association list only looks up its own key. -/
theorem lookup_singleton_eq_some {k v x y : String}
    (h : List.lookup x [(k, v)] = some y) : x = k ∧ y = v := by
  by_cases hxk : x = k
  · subst hxk
    simp only [List.lookup_cons_self, Option.some.injEq] at h
    exact ⟨rfl, h.symm⟩
  · have hb : (x == k) = false := beq_eq_false_iff_ne.mpr hxk
    simp [List.lookup, hb] at h

/-- C2: whenever a redirect cycle is reachable from the start key,
`follow_redirects` terminates (it is a total Lean function) and returns the
circular-redirect error. -/
theorem C2_cycle_detected (rs : List (String × String)) (start : String)
    (h : CycleReachable rs start) :
    follow_redirects rs start = .error "Circular redirect detected" := by
  obtain ⟨x, hrx, hcyc⟩ := h
  unfold follow_redirects
  cases hres : followRedirects rs start [] with
  | ok v =>
    exfalso
    obtain ⟨hrv, hterm⟩ := followRedirects_ok rs v start [] hres
    rcases Relation.ReflTransGen.total_of_right_unique
      (redirectStep_rightUnique rs) hrv hrx with hvx | hxv
    · have hveq := reaches_eq_of_terminal hterm hvx
      rcases Relation.TransGen.head'_iff.mp (hveq ▸ hcyc) with ⟨w, hw, _⟩
      unfold redirectStep at hw
      rw [hterm] at hw
      cases hw
    · have hvv := transGen_self_of_reaches hcyc hxv
      rcases Relation.TransGen.head'_iff.mp hvv with ⟨w, hw, _⟩
      unfold redirectStep at hw
      rw [hterm] at hw
      cases hw
  | error e =>
    rw [followRedirects_error_msg rs start [] e hres]

/-- C2 witness: on the redirect map `{"a" ↦ "b", "b" ↦ "a"}` the cycle is
reachable from `"a"` and `follow_redirects` reports it. -/
theorem C2_cycle_detected_witness :
    follow_redirects [("a", "b"), ("b", "a")] "a" =
      .error "Circular redirect detected" :=
  C2_cycle_detected [("a", "b"), ("b", "a")] "a"
    ⟨"a", Relation.ReflTransGen.refl,
      Relation.TransGen.head
        (show redirectStep [("a", "b"), ("b", "a")] "a" "b" from rfl)
        (Relation.TransGen.single
          (show redirectStep [("a", "b"), ("b", "a")] "b" "a" from rfl))⟩

/-- C3: when no redirect cycle is reachable from the start key,
`follow_redirects` succeeds and returns the unique fixed point reachable from
the start key — a value that is not itself a key of the redirect map — and
any reachable non-key equals it. -/
theorem C3_fixed_point (rs : List (String × String)) (start : String)
    (h : ¬ CycleReachable rs start) :
    ∃ v, follow_redirects rs start = .ok v ∧ Reaches rs start v ∧
      rs.lookup v = none ∧
      ∀ w, Reaches rs start w → rs.lookup w = none → w = v := by
  unfold follow_redirects
  cases hres : followRedirects rs start [] with
  | error e =>
    exact absurd (followRedirects_error_cycle rs start [] (by simp) e hres) h
  | ok v =>
    obtain ⟨hrv, hterm⟩ := followRedirects_ok rs v start [] hres
    refine ⟨v, rfl, hrv, hterm, ?_⟩
    intro w hrw hwterm
    rcases Relation.ReflTransGen.total_of_right_unique
      (redirectStep_rightUnique rs) hrw hrv with hwv | hvw
    · exact reaches_eq_of_terminal hwterm hwv
    · exact (reaches_eq_of_terminal hterm hvw).symm

/-- C3 witness: the map `{"a" ↦ "b"}` has no reachable cycle from `"a"`, and
the fixed point is computed. -/
theorem C3_fixed_point_witness :
    ∃ v, follow_redirects [("a", "b")] "a" = .ok v ∧
      Reaches [("a", "b")] "a" v ∧ (List.lookup v [("a", "b")]) = none ∧
      ∀ w, Reaches [("a", "b")] "a" w →
        (List.lookup w [("a", "b")]) = none → w = v :=
  C3_fixed_point [("a", "b")] "a" (by
    rintro ⟨x, _, hcyc⟩
    rcases Relation.TransGen.head'_iff.mp hcyc with ⟨y, hxy, hyx⟩
    obtain ⟨rfl, rfl⟩ := lookup_singleton_eq_some hxy
    rcases Relation.ReflTransGen.cases_head hyx with heq | ⟨c, hc, _⟩
    · exact absurd heq (by decide)
    · obtain ⟨hba, _⟩ := lookup_singleton_eq_some hc
      exact absurd hba (by decide))

/-- Rust's `str::split(sep)` over the character list: split at every
occurrence of `sep`, keeping empty segments; the result is always
non-empty. -/
def splitOnChar (sep : Char) : List Char → List (List Char)
  | [] => [[]]
  | c :: cs =>
    if c = sep then [] :: splitOnChar sep cs
    else
      match splitOnChar sep cs with
      | [] => [[c]]
      | h :: t => (c :: h) :: t

/-- The package-name extraction performed by `resolve_id` (src line 175):
`npm_package.split('@').next().unwrap_or(&npm_package)` — the segment of
`npm_package` before its first `'@'` (`split` always yields at least one
segment, so the `unwrap_or` fallback is the whole string). -/
def package_name (npm_package : String) : String :=
  String.mk ((splitOnChar '@' npm_package.toList).headD npm_package.toList)

/-- Modelled from the spec: the package-name extraction rule of §4.4 item 3 —
if the reference starts with `@` the version separator is the second `@` in
the string, otherwise it is the first. -/
def spec_package_name (s : String) : String :=
  match s.toList with
  | '@' :: rest => String.mk ('@' :: (splitOnChar '@' rest).headD rest)
  | _ => String.mk ((splitOnChar '@' s.toList).headD s.toList)

/-- Two patterns that differ in their first character are never both
prefixes of the same string. -/
theorem isPrefixOf_disjoint_head {a b : Char} (hab : a ≠ b) (p q l : List Char)
    (h : List.isPrefixOf (a :: p) l = true) :
    List.isPrefixOf (b :: q) l = false := by
  cases l with
  | nil => simp [List.isPrefixOf] at h
  | cons x xs =>
    simp only [List.isPrefixOf, Bool.and_eq_true, beq_iff_eq] at h
    obtain ⟨rfl, -⟩ := h
    simp only [List.isPrefixOf, Bool.and_eq_false_iff]
    exact Or.inl (beq_eq_false_iff_ne.mpr (Ne.symm hab))

/-- A string starting with `"npm:"` does not start with `"jsr:"`. -/
theorem npm_not_jsr {s : String} (h : starts_with s "npm:" = true) :
    starts_with s "jsr:" = false := by
  unfold starts_with at h ⊢
  exact isPrefixOf_disjoint_head (by decide) _ _ _ h

/-- A string starting with `"npm:"` does not start with `"http:"`. -/
theorem npm_not_http {s : String} (h : starts_with s "npm:" = true) :
    starts_with s "http:" = false := by
  unfold starts_with at h ⊢
  exact isPrefixOf_disjoint_head (by decide) _ _ _ h

/-- A string starting with `"npm:"` does not start with `"https:"`. -/
theorem npm_not_https {s : String} (h : starts_with s "npm:" = true) :
    starts_with s "https:" = false := by
  unfold starts_with at h ⊢
  exact isPrefixOf_disjoint_head (by decide) _ _ _ h

/-- The outcome of running the external `deno info --json <specifier>`
subprocess: an exit status and captured standard output. -/
structure CmdOutput where
  success : Bool
  stdout : String

/-- Rust `get_deno_info` (src lines 71-82), with the subprocess modelled by
the oracle `run` and `serde_json` parsing modelled by the oracle `parse`.
A non-zero exit status yields `Err("deno info command failed")`; a parse
failure is a panic (`expect`), modelled as an error. -/
def get_deno_info (run : String → CmdOutput)
    (parse : String → Option DenoInfoJsonV1) (specifier : String) :
    Except String DenoInfoJsonV1 :=
  let output := run specifier
  if output.success = false then .error "deno info command failed"
  else
    match parse output.stdout with
    | some info => .ok info
    | none => .error "Failed to parse JSON output"

/-- Rust `get_local_path` (src lines 84-100), with the provider call
abstracted as the oracle `info`: follow the redirects from `specifier` and
return the `local` field of the first `esm` module whose specifier equals the
final one. -/
def get_local_path (info : String → Except String DenoInfoJsonV1)
    (specifier : String) : Except String String :=
  match info specifier with
  | .error e => .error e
  | .ok i =>
    match follow_redirects i.redirects specifier with
    | .error e => .error e
    | .ok final_specifier =>
      match i.modules.findSome? (fun m =>
          match m with
          | .esm localPath s _ => if s = final_specifier then some localPath else none
          | .npm _ _ => none) with
      | some localPath => .ok localPath
      | none => .error "Module not found or has no local path"

/-- The dispatch portion of `resolve_id` (src lines 149-194), acting on the
import-map-rewritten specifier `maybe_resolved`.  The provider call is the
oracle `info` and the host's delegated resolver (`ctx.resolve`) is the oracle
`delegate`.  The `.expect(..)` panics of the Rust code are modelled as
errors carrying the panic message. -/
def resolve_dispatch (info : String → Except String DenoInfoJsonV1)
    (delegate : String → Except String String) (maybe_resolved : String) :
    Except String (Option HookResolveIdOutput) :=
  if starts_with maybe_resolved "jsr:" then
    match expect (info maybe_resolved) "get info failed" with
    | .error e => .error e
    | .ok i =>
      match expect (follow_redirects i.redirects maybe_resolved)
          "follow_redirects failed" with
      | .error e => .error e
      | .ok final_specifier =>
        .ok (some { id := final_specifier, external := some false })
  else if starts_with maybe_resolved "http:" || starts_with maybe_resolved "https:" then
    .ok (some { id := maybe_resolved, external := some false })
  else if starts_with maybe_resolved "npm:" then
    match expect (info maybe_resolved) "get info failed" with
    | .error e => .error e
    | .ok i =>
      match expect (follow_redirects i.redirects maybe_resolved)
          "follow_redirects failed" with
      | .error e => .error e
      | .ok redirected =>
        match i.modules.find? (fun m =>
            match m with
            | .npm specifier _ => specifier = redirected
            | .esm _ _ _ => false) with
        | some (.npm _ npm_package) =>
          match delegate (package_name npm_package) with
          | .error e => .error e
          | .ok resolved_id => .ok (some { id := resolved_id, external := none })
        | _ => .ok none
  else
    .ok none

/-- Rust `load` (src lines 198-226), with the provider call abstracted as the
oracle `info` and `OsFileSystem::read` as the oracle `fs`: ids with a
`jsr:`/`http:`/`https:` prefix are resolved to a local path and read; every
other id is unhandled (`Ok(None)`). -/
def load (info : String → Except String DenoInfoJsonV1)
    (fs : String → Except String String) (id : String) :
    Except String (Option HookLoadOutput) :=
  if starts_with id "jsr:" || starts_with id "http:" || starts_with id "https:" then
    match expect (get_local_path info id) "local path not found" with
    | .error e => .error e
    | .ok local_path =>
      match expect (fs local_path) "cant read local path" with
      | .error e => .error e
      | .ok code => .ok (some { code := code, module_type := some ModuleType.Tsx })
  else
    .ok none

/-- Modelled from the spec: the external `import_map` crate's `resolve`
(§4.3) — the statically configured alias table is consulted and a matching
alias yields the mapped target, while the absence of a match is a resolution
failure that the caller turns into identity.  The crate itself is an external
dependency whose code is not part of this repository. -/
def import_map_resolve (imports : List (String × String)) (specifier : String) :
    Except String String :=
  match imports.lookup specifier with
  | some target => .ok target
  | none => .error "no alias match"

/-- The import-map rewrite step of `resolve_id` (src lines 141-145):
`import_map.resolve(..).ok().map(to_string).unwrap_or_else(id)` — a failed
resolution falls back to the input unchanged, so the rewrite itself never
fails. -/
def rewrite (imports : List (String × String)) (id : String) : String :=
  match import_map_resolve imports id with
  | .ok url => url
  | .error _ => id

/-- The import map hardcoded in `resolve_id` (src line 137). -/
def configured_imports : List (String × String) :=
  [("@std/assert", "jsr:@std/assert")]

/-- C1: the claim states that the npm-branch package-name extraction follows
the spec rule (first `@` for unscoped references, second `@` for scoped
ones).  The code instead always takes the segment before the first `@`
(`split('@').next()`), so the scoped references `"@scope/pkg@1.2.3"` and
`"@scope/pkg"` yield `""` instead of `"@scope/pkg"`; only the unscoped case
agrees.  This is the exact naive split that the spec explicitly calls a
mishandling, so the code contradicts the spec's stated intent. -/
theorem C1_package_name_divergence :
    package_name "@scope/pkg@1.2.3" = "" ∧
    spec_package_name "@scope/pkg@1.2.3" = "@scope/pkg" ∧
    package_name "pkg@1.2.3" = "pkg" ∧
    spec_package_name "pkg@1.2.3" = "pkg" ∧
    package_name "@scope/pkg" = "" ∧
    spec_package_name "@scope/pkg" = "@scope/pkg" := by decide

/-- The provider response for the C4 counterexample: no redirects, and the
only module whose specifier equals the resolved value is an `esm` variant,
not an `npm` one. -/
def c4Info : DenoInfoJsonV1 :=
  ⟨[], [.esm "/cache/chalk.ts" "npm:chalk" .JavaScript]⟩

/-- C4 counterexample: for the `npm:`-prefixed specifier `"npm:chalk"` whose
provider response leads (after the trivial redirect chain) to an `esm`
module entry — not a `PackageModule`/`npm` variant — the resolve dispatch
returns the Unhandled outcome `Ok(None)` and does not fail with any error,
contradicting the claim that it fails with `UnexpectedModuleVariant`. -/
theorem C4_counterexample :
    resolve_dispatch (fun _ => .ok c4Info) (fun _ => .error "unused") "npm:chalk"
        = .ok none ∧
    ¬ ∃ e, resolve_dispatch (fun _ => .ok c4Info) (fun _ => .error "unused")
        "npm:chalk" = .error e := by
  have h1 : resolve_dispatch (fun _ => .ok c4Info) (fun _ => .error "unused")
      "npm:chalk" = .ok none := by
    simp [resolve_dispatch, expect, follow_redirects, followRedirects, c4Info,
      starts_with, List.find?]
  refine ⟨h1, ?_⟩
  rintro ⟨e, he⟩
  rw [h1] at he
  cases he

/-- C4 (amended): for every `npm:`-prefixed specifier whose provider
response, after following redirects, has no `npm`-variant module entry with
the redirected specifier (the matching entry is another variant or absent),
the resolve dispatch falls through to the Unhandled outcome `Ok(None)`
rather than failing. -/
theorem C4_unhandled_fallthrough (info : String → Except String DenoInfoJsonV1)
    (delegate : String → Except String String) (s : String)
    (resp : DenoInfoJsonV1) (fin : String)
    (hs : starts_with s "npm:" = true)
    (hinfo : info s = .ok resp)
    (hfol : follow_redirects resp.redirects s = .ok fin)
    (hnone : ∀ p, ModuleInfo.npm fin p ∉ resp.modules) :
    resolve_dispatch info delegate s = .ok none := by
  have hfind : resp.modules.find? (fun m => match m with
      | .npm specifier _ => specifier = fin
      | .esm _ _ _ => false) = none := by
    rw [List.find?_eq_none]
    intro m hm
    cases m with
    | esm lp sp mt => simp
    | npm sp p =>
      by_cases hsp : sp = fin
      · exact absurd (hsp ▸ hm) (hnone p)
      · simp [hsp]
  unfold resolve_dispatch
  simp [npm_not_jsr hs, npm_not_http hs, npm_not_https hs, hs, hinfo, hfol,
    hfind, expect]

/-- C4 witness: the amended fall-through behavior at the counterexample
input, obtained through the general theorem. -/
theorem C4_unhandled_fallthrough_witness :
    resolve_dispatch (fun _ => .ok c4Info) (fun _ => .error "unused")
      "npm:chalk" = .ok none :=
  C4_unhandled_fallthrough (fun _ => .ok c4Info) (fun _ => .error "unused")
    "npm:chalk" c4Info "npm:chalk"
    (by decide) rfl
    (by simp [follow_redirects, followRedirects, c4Info])
    (by intro p hp; simp [c4Info] at hp)

/-- C5: for every `jsr:`- or `npm:`-prefixed (rewritten) specifier for which
the `deno info` subprocess exits with a non-zero status, the resolve
dispatch fails (with the panic message of the `.expect` wrapping the
provider error) and never yields the silent Unhandled outcome. -/
theorem C5_provider_failure_surfaces (run : String → CmdOutput)
    (parse : String → Option DenoInfoJsonV1)
    (delegate : String → Except String String) (maybe_resolved : String)
    (hpre : starts_with maybe_resolved "jsr:" = true ∨
      starts_with maybe_resolved "npm:" = true)
    (hfail : (run maybe_resolved).success = false) :
    resolve_dispatch (get_deno_info run parse) delegate maybe_resolved =
      .error "get info failed" := by
  have hinfo : get_deno_info run parse maybe_resolved =
      .error "deno info command failed" := by
    unfold get_deno_info
    simp [hfail]
  rcases hpre with hj | hn
  · unfold resolve_dispatch
    simp [hj, hinfo, expect]
  · unfold resolve_dispatch
    simp [npm_not_jsr hn, npm_not_http hn, npm_not_https hn, hn, hinfo, expect]

/-- C5 witness: a provider that always exits unsuccessfully makes the
resolution of `"jsr:@std/assert"` fail rather than pass through. -/
theorem C5_provider_failure_surfaces_witness :
    resolve_dispatch
      (get_deno_info (fun _ => ⟨false, ""⟩) (fun _ => none))
      (fun _ => .error "unused") "jsr:@std/assert" = .error "get info failed" :=
  C5_provider_failure_surfaces (fun _ => ⟨false, ""⟩) (fun _ => none)
    (fun _ => .error "unused") "jsr:@std/assert" (Or.inl (by decide)) rfl

/-- C6: for every id that does not start with `jsr:`, `http:` or `https:`,
`load` returns the Unhandled outcome `Ok(None)` for every provider and
filesystem oracle — in particular its result does not depend on the
provider, which is therefore never consulted. -/
theorem C6_load_unhandled (id : String)
    (h : starts_with id "jsr:" = false ∧ starts_with id "http:" = false ∧
      starts_with id "https:" = false)
    (info : String → Except String DenoInfoJsonV1)
    (fs : String → Except String String) :
    load info fs id = .ok none := by
  unfold load
  simp [h.1, h.2.1, h.2.2]

/-- C6 witness: loading the relative id `"./foo.ts"` is unhandled even when
every provider invocation would fail loudly. -/
theorem C6_load_unhandled_witness :
    load (fun _ => .error "provider must not be invoked")
      (fun _ => .error "unused") "./foo.ts" = .ok none :=
  C6_load_unhandled "./foo.ts" ⟨by decide, by decide, by decide⟩
    (fun _ => .error "provider must not be invoked") (fun _ => .error "unused")

/-- The provider response of the C7 fixed example. -/
def c7Info : DenoInfoJsonV1 :=
  ⟨[("jsr:@std/assert", "jsr:@std/assert@1.0.0")],
   [.esm "/cache/assert.ts" "jsr:@std/assert@1.0.0" .TypeScript]⟩

/-- C7: with redirects mapping `jsr:@std/assert` to `jsr:@std/assert@1.0.0`
and an `esm` module entry for the latter with local path
`/cache/assert.ts`, resolving the local path of `"jsr:@std/assert"` yields
`/cache/assert.ts`. -/
theorem C7_example_local_path :
    get_local_path (fun _ => .ok c7Info) "jsr:@std/assert" =
      .ok "/cache/assert.ts" := by
  simp [get_local_path, c7Info, follow_redirects, followRedirects,
    List.lookup, List.findSome?]

/-- C8: for every `jsr:`-prefixed id whose provider response, after
following redirects, reaches a final specifier carried only by an
`npm`-variant module entry (and by no `esm` entry), `get_local_path` fails
with the module-not-found error and `load` fails with the corresponding
panic message instead of succeeding or returning Unhandled. -/
theorem C8_jsr_npm_variant_load_fails
    (info : String → Except String DenoInfoJsonV1)
    (fs : String → Except String String) (id : String)
    (resp : DenoInfoJsonV1) (fin : String)
    (hpre : starts_with id "jsr:" = true)
    (hinfo : info id = .ok resp)
    (hfol : follow_redirects resp.redirects id = .ok fin)
    (hesm : ∀ lp s mt, ModuleInfo.esm lp s mt ∈ resp.modules → s ≠ fin)
    (hnpm : ∃ p, ModuleInfo.npm fin p ∈ resp.modules) :
    get_local_path info id = .error "Module not found or has no local path" ∧
    load info fs id = .error "local path not found" := by
  have hfind : resp.modules.findSome? (fun m => match m with
      | .esm localPath s _ => if s = fin then some localPath else none
      | .npm _ _ => none) = none := by
    rw [List.findSome?_eq_none_iff]
    intro m hm
    cases m with
    | esm lp s mt => simp [hesm lp s mt hm]
    | npm s p => rfl
  have hglp : get_local_path info id =
      .error "Module not found or has no local path" := by
    unfold get_local_path
    rw [hinfo]
    simp only [hfol, hfind]
  refine ⟨hglp, ?_⟩
  unfold load
  simp [hpre, hglp, expect]

/-- The provider response of the C8 witness: the final specifier is carried
only by an `npm`-variant entry. -/
def c8Info : DenoInfoJsonV1 :=
  ⟨[], [.npm "jsr:@std/assert" "assert@1.0.0"]⟩

/-- C8 witness: the failure at a concrete `jsr:` id whose only module entry
is an `npm` variant. -/
theorem C8_jsr_npm_variant_load_fails_witness :
    get_local_path (fun _ => .ok c8Info) "jsr:@std/assert" =
      .error "Module not found or has no local path" ∧
    load (fun _ => .ok c8Info) (fun _ => .ok "") "jsr:@std/assert" =
      .error "local path not found" :=
  C8_jsr_npm_variant_load_fails (fun _ => .ok c8Info) (fun _ => .ok "")
    "jsr:@std/assert" c8Info "jsr:@std/assert"
    (by decide) rfl
    (by simp [follow_redirects, followRedirects, c8Info])
    (by intro lp s mt hm; simp [c8Info] at hm)
    ⟨"assert@1.0.0", by simp [c8Info]⟩

/-- C9: the import-map rewrite is the identity on every specifier with no
matching alias, hence idempotent there; the rewrite itself never fails
(absence of a match falls back to the input). -/
theorem C9_rewrite_idempotent (imports : List (String × String)) (x : String)
    (h : imports.lookup x = none) :
    rewrite imports x = x ∧
    rewrite imports (rewrite imports x) = rewrite imports x := by
  have hx : rewrite imports x = x := by
    unfold rewrite import_map_resolve
    rw [h]
  refine ⟨hx, ?_⟩
  rw [hx]
  exact hx

/-- C9 witness: `"lodash"` matches no alias of the configured import map and
is rewritten to itself, idempotently. -/
theorem C9_rewrite_idempotent_witness :
    rewrite configured_imports "lodash" = "lodash" ∧
    rewrite configured_imports (rewrite configured_imports "lodash") =
      rewrite configured_imports "lodash" :=
  C9_rewrite_idempotent configured_imports "lodash" (by decide)

/-- C10: every id that `load` handles successfully is returned with module
type `Tsx`, for every provider and filesystem oracle — in particular
independently of the `DenoMediaType` the provider reports for the entry. -/
theorem C10_module_type_always_tsx
    (info : String → Except String DenoInfoJsonV1)
    (fs : String → Except String String) (id : String) (out : HookLoadOutput)
    (h : load info fs id = .ok (some out)) :
    out.module_type = some ModuleType.Tsx := by
  unfold load at h
  by_cases hc : (starts_with id "jsr:" || starts_with id "http:" ||
      starts_with id "https:") = true
  · rw [if_pos hc] at h
    cases hg : expect (get_local_path info id) "local path not found" with
    | error e => rw [hg] at h; cases h
    | ok lp =>
      rw [hg] at h
      simp only [] at h
      cases hf : expect (fs lp) "cant read local path" with
      | error e => rw [hf] at h; cases h
      | ok code =>
        rw [hf] at h
        simp only [Except.ok.injEq, Option.some.injEq] at h
        rw [← h]
  · rw [if_neg hc] at h
    simp at h

/-- The provider response of the C10 witness: the entry's media type is
`JavaScript`, yet the loaded module type is `Tsx`. -/
def c10Info : DenoInfoJsonV1 :=
  ⟨[], [.esm "/cache/x.ts" "jsr:x" .JavaScript]⟩

/-- C10 witness: a successful concrete load returns module type `Tsx`
although the provider reported `JavaScript`. -/
theorem C10_module_type_always_tsx_witness :
    (⟨"content", some ModuleType.Tsx⟩ : HookLoadOutput).module_type =
      some ModuleType.Tsx :=
  C10_module_type_always_tsx (fun _ => .ok c10Info) (fun _ => .ok "content")
    "jsr:x" ⟨"content", some ModuleType.Tsx⟩
    (by simp [load, get_local_path, expect, follow_redirects, followRedirects,
      c10Info, starts_with, List.findSome?])

end DenoLoader
